import Mathlib

/-!
Verification development for the ai-recipe-recommender repository.

The repository has two Python source files:

* `ai_processing.py` — credential resolution (`get_gemini_api_key`), the two
  AI-invoking operations (`identify_ingredients`, `generate_recipe`) and the
  hard-coded video stub (`generate_recipe_video`).
* `streamlit_app.py` — UI flow: it parses the generator output with
  `json.loads` and displays the parsed dictionary through `.get` calls with
  placeholder defaults.

This file gives a shallow embedding of that code.  Python strings are
embedded as `List Char`.  The external world visible to `ai_processing.py`
(the Streamlit secret store, the process environment, the construction of the
`genai.Client`, and the single `generate_content` network call an operation
may attempt) is embedded as an explicit environment record `PyEnv`; each
embedded operation returns its result string together with the number of
network calls (`generate_content` invocations) it attempted.  The standard
library pieces the app relies on (`str.strip`, `str.replace`, the `in`
substring test, `json.loads` restricted to the object shapes the app
produces and consumes, and `dict.get`) are embedded as executable Lean
functions below, directly from their documented left-to-right semantics.
-/

/-! ## Python string primitives -/

/-- The backtick character, written by code point to keep the source plain. -/
def bt : Char := Char.ofNat 96

/-- The opening curly brace character. -/
def lbrace : Char := Char.ofNat 123

/-- The closing curly brace character. -/
def rbrace : Char := Char.ofNat 125

/-- The whitespace set of Python `str.strip()` (ASCII part: space, tab,
newline, carriage return, vertical tab, form feed). -/
def pyIsSpace (c : Char) : Bool :=
  c = ' ' || c = '\t' || c = '\n' || c = '\r' || c = Char.ofNat 11 || c = Char.ofNat 12

/-- Removal of trailing characters satisfying `pyIsSpace`. -/
def dropTrailing (s : List Char) : List Char :=
  (s.reverse.dropWhile pyIsSpace).reverse

/-- Python `str.strip()`: remove leading and trailing whitespace. -/
def pyStrip (s : List Char) : List Char :=
  dropTrailing (s.dropWhile pyIsSpace)

/-- Python substring test `pat in s`: does `pat` occur contiguously in `s`? -/
def listContains (pat : List Char) : List Char → Bool
  | [] => pat.isEmpty
  | c :: cs => pat.isPrefixOf (c :: cs) || listContains pat cs

/-- Python `s.replace("БББ", "")` where БББ stands for three backticks:
scan left to right, remove each occurrence of three consecutive backticks. -/
def delFence3 : List Char → List Char
  | c1 :: c2 :: c3 :: rest =>
    if c1 = bt ∧ c2 = bt ∧ c3 = bt then delFence3 rest
    else c1 :: delFence3 (c2 :: c3 :: rest)
  | c1 :: rest => c1 :: delFence3 rest
  | [] => []

/-- Python `s.replace(m, "")` for `m` the 7-character marker of three
backticks followed by the letters j, s, o, n (the json code fence). -/
def delFenceJson : List Char → List Char
  | c1 :: c2 :: c3 :: c4 :: c5 :: c6 :: c7 :: rest =>
    if c1 = bt ∧ c2 = bt ∧ c3 = bt ∧ c4 = 'j' ∧ c5 = 's' ∧ c6 = 'o' ∧ c7 = 'n' then
      delFenceJson rest
    else c1 :: delFenceJson (c2 :: c3 :: c4 :: c5 :: c6 :: c7 :: rest)
  | c1 :: rest => c1 :: delFenceJson rest
  | [] => []

/-- Python `s.replace(m, "")` for `m` the 9-character marker of three
backticks followed by the letters p, y, t, h, o, n (the python code fence). -/
def delFencePython : List Char → List Char
  | c1 :: c2 :: c3 :: c4 :: c5 :: c6 :: c7 :: c8 :: c9 :: rest =>
    if c1 = bt ∧ c2 = bt ∧ c3 = bt ∧ c4 = 'p' ∧ c5 = 'y' ∧ c6 = 't' ∧ c7 = 'h'
        ∧ c8 = 'o' ∧ c9 = 'n' then
      delFencePython rest
    else c1 :: delFencePython (c2 :: c3 :: c4 :: c5 :: c6 :: c7 :: c8 :: c9 :: rest)
  | c1 :: rest => c1 :: delFencePython rest
  | [] => []

/-- `ai_processing.py` line 62: the response cleanup of `identify_ingredients`,
`response.text.strip().replace(python fence, "").replace(plain fence, "")`. -/
def identifyCleanup (s : List Char) : List Char :=
  delFence3 (delFencePython (pyStrip s))

/-- `ai_processing.py` line 110: the response cleanup of `generate_recipe`,
`response.text.strip().replace(json fence, "").replace(plain fence, "")`. -/
def generateCleanup (s : List Char) : List Char :=
  delFence3 (delFenceJson (pyStrip s))

/-! ## The environment visible to `ai_processing.py`

`PyEnv` captures one execution state of the world around an operation:

* `secretsEntry = some v` means the access of the secret store entry
  `GEMINI_API_KEY` at line 13 returns the string `v`; `none` means the
  access raises (entry or secrets file absent), which is the `except` path.
* `envVar` is the result of `os.getenv` at line 18 (`none` when unset).
* `clientInitOk` says whether the `genai.Client(...)` construction succeeds;
  constructing the client performs no network request.
* `apiResponse` is the oracle for the single `generate_content` call the
  operation may attempt: `Except.ok t` means the call returns text `t`,
  `Except.error e` means it raises with message `e`.  The dependence of the
  real response on the uploaded image, the prompt and the constraints is
  folded into this oracle; the constraint arguments only flow into the
  request.
-/
structure PyEnv where
  secretsEntry : Option (List Char)
  envVar : Option (List Char)
  clientInitOk : Bool
  apiResponse : Except (List Char) (List Char)

/-- `ai_processing.py` lines 9 to 23.  The secret store is tried first; the
`except` branch (and with it the environment fallback) runs only when the
store access raises; a store value that is present but falsy (empty) falls
through to the final `return None`.  Python string truthiness is
non-emptiness. -/
def get_gemini_api_key (env : PyEnv) : Option (List Char) :=
  match env.secretsEntry with
  | some key => if key ≠ [] then some key else none
  | none =>
    match env.envVar with
    | some key => if key ≠ [] then some key else none
    | none => none

/-- Result of an embedded `identify_ingredients` run: the returned string and
the number of `generate_content` network calls attempted. -/
structure IdentifyResult where
  output : List Char
  apiCalls : Nat
deriving DecidableEq

/-- Result of an embedded `generate_recipe` run: the returned string, the
number of `generate_content` network calls attempted, and whether execution
reached the prompt-building code below the sentinel check (lines 84 to 103). -/
structure GenerateResult where
  output : List Char
  apiCalls : Nat
  builtPrompt : Bool
deriving DecidableEq

/-- The sentinel phrase of the ingredient detection contract. -/
def sentinel : List Char := "FAILURE: NO FOOD DETECTED".toList

/-- `ai_processing.py` lines 26 to 66.  The uploaded image influences only the
oracle response, so it does not appear as an argument of the embedding. -/
def identify_ingredients (env : PyEnv) : IdentifyResult :=
  match get_gemini_api_key env with
  | none => ⟨"Error: Gemini API key is missing from Streamlit secrets.".toList, 0⟩
  | some _ =>
    if env.clientInitOk then
      match env.apiResponse with
      | Except.ok text => ⟨identifyCleanup text, 1⟩
      | Except.error e => ⟨"Error during API call: ".toList ++ e, 1⟩
    else ⟨"Error: AI client failed to initialize with key.".toList, 0⟩

/-- The error object returned at line 72 when no credential resolves. -/
def jsonErrNotInit : List Char :=
  "\x7b\"error\": \"AI client not initialized.\"\x7d".toList

/-- The error object returned at line 78 when client construction fails. -/
def jsonErrInitFail : List Char :=
  "\x7b\"error\": \"AI client failed to initialize with key.\"\x7d".toList

/-- The error object returned at line 82 when the sentinel is detected. -/
def jsonErrNoFood : List Char :=
  "\x7b\"error\": \"Ingredient identification failed. No food was detected in the image.\"\x7d".toList

/-- The error object returned at line 113 when the API call raises. -/
def jsonErrApi : List Char :=
  "\x7b\"error\": \"Recipe generation failed due to API error.\"\x7d".toList

/-- `ai_processing.py` lines 69 to 113: credential check, client
construction, sentinel short circuit, then prompt construction and the
API call.  `cuisine`, `max_time` and `dietary_filters` only flow into the
prompt, hence into the request captured by the oracle. -/
def generate_recipe (env : PyEnv) (ingredient_list_str : List Char)
    (cuisine : List Char) (max_time : Nat) (dietary_filters : List (List Char)) :
    GenerateResult :=
  match get_gemini_api_key env with
  | none => ⟨jsonErrNotInit, 0, false⟩
  | some _ =>
    if env.clientInitOk then
      if listContains sentinel ingredient_list_str then ⟨jsonErrNoFood, 0, false⟩
      else
        match env.apiResponse with
        | Except.ok text => ⟨generateCleanup text, 1, true⟩
        | Except.error _ => ⟨jsonErrApi, 1, true⟩
    else ⟨jsonErrInitFail, 0, false⟩

/-- `ai_processing.py` lines 117 to 122: the video stub ignores both
arguments and returns a fixed URL. -/
def generate_recipe_video (recipe_title narration_script : List Char) : List Char :=
  "https://www.youtube.com/watch?v=kY3NfQGz29Q".toList

/-! ## JSON model

`streamlit_app.py` parses the generator output with `json.loads` (line 147)
and reads fields off the resulting dictionary with `dict.get` (lines 149 and
162 to 183).  Every JSON document this application produces or consumes is a
flat object whose values are strings, integers, or arrays of strings (the
RecipeRecord shape and the single-key error objects), so `json.loads` is
embedded for exactly that grammar: an executable renderer `renderObj` and an
executable recursive-descent parser `pyLoads` (strict mode: raw control
characters inside strings are rejected, as in Python), together with the
dictionary lookup `pyGet` modelling `dict.get` with a default (later
duplicate keys win, as when `json.loads` builds a dict by insertion). -/

/-- A JSON value of the flat grammar: string, integer, or array of strings. -/
inductive JVal where
  | jstr (s : List Char) : JVal
  | jnum (n : Int) : JVal
  | jarr (ss : List (List Char)) : JVal
deriving DecidableEq

/-- A parsed JSON object: the key-value pairs in source order. -/
abbrev JObj := List (List Char × JVal)

/-- Render one character of a JSON string body, escaping quote and backslash. -/
def escapeChar (c : Char) : List Char :=
  if c = '"' then ['\\', '"'] else if c = '\\' then ['\\', '\\'] else [c]

/-- Render a JSON string literal with its quotes. -/
def renderStr (s : List Char) : List Char :=
  '"' :: ((s.map escapeChar).flatten ++ ['"'])

/-- The character of a decimal digit. -/
def digitChar10 (d : Nat) : Char := Char.ofNat (48 + d)

/-- Decimal rendering of a natural number, most significant digit first. -/
def renderNat (n : Nat) : List Char :=
  if n = 0 then ['0'] else ((Nat.digits 10 n).map digitChar10).reverse

/-- Decimal rendering of an integer. -/
def renderInt (n : Int) : List Char :=
  if n < 0 then '-' :: renderNat n.natAbs else renderNat n.natAbs

/-- Render the second and later elements of a string array. -/
def elemsTail (ss : List (List Char)) : List Char :=
  (ss.map (fun s => ',' :: renderStr s)).flatten

/-- Render the inside of a string array, everything after the open bracket. -/
def arrInner : List (List Char) → List Char
  | [] => [']']
  | s :: t => renderStr s ++ elemsTail t ++ [']']

/-- Render a JSON value of the flat grammar. -/
def renderVal : JVal → List Char
  | JVal.jstr s => renderStr s
  | JVal.jnum n => renderInt n
  | JVal.jarr ss => '[' :: arrInner ss

/-- Render one key-value pair. -/
def renderPair (p : List Char × JVal) : List Char :=
  renderStr p.1 ++ ':' :: renderVal p.2

/-- Render the second and later pairs of an object. -/
def pairsTail (ps : JObj) : List Char :=
  (ps.map (fun p => ',' :: renderPair p)).flatten

/-- Render the inside of an object, everything after the open brace. -/
def objInner : JObj → List Char
  | [] => [rbrace]
  | p :: t => renderPair p ++ pairsTail t ++ [rbrace]

/-- Render a JSON object document. -/
def renderObj (d : JObj) : List Char := lbrace :: objInner d

/-- The whitespace the JSON grammar allows between tokens. -/
def jsonIsSpace (c : Char) : Bool :=
  c = ' ' || c = '\t' || c = '\n' || c = '\r'

/-- Skip inter-token JSON whitespace. -/
def skipSp (cs : List Char) : List Char := cs.dropWhile jsonIsSpace

/-- Resolve a JSON escape character (the unicode escape is not modelled). -/
def unescapeChar (c : Char) : Option Char :=
  if c = '"' then some '"'
  else if c = '\\' then some '\\'
  else if c = '/' then some '/'
  else if c = 'n' then some '\n'
  else if c = 't' then some '\t'
  else if c = 'r' then some '\r'
  else if c = 'b' then some (Char.ofNat 8)
  else if c = 'f' then some (Char.ofNat 12)
  else none

/-- Parse a JSON string body after its opening quote; return the decoded
string and the input after the closing quote.  Raw control characters are
rejected, as by Python in strict mode. -/
def parseStrBody : List Char → Option (List Char × List Char)
  | [] => none
  | c :: cs =>
    if c = '"' then some ([], cs)
    else if c = '\\' then
      match cs with
      | [] => none
      | e :: cs1 =>
        match unescapeChar e, parseStrBody cs1 with
        | some u, some (s, r) => some (u :: s, r)
        | _, _ => none
    else if c.toNat < 32 then none
    else
      match parseStrBody cs with
      | some (s, r) => some (c :: s, r)
      | none => none

/-- Is this a decimal digit character? -/
def isDigitCh (c : Char) : Bool := 48 ≤ c.toNat && c.toNat ≤ 57

/-- The value of a decimal digit character. -/
def digitVal (c : Char) : Nat := c.toNat - 48

/-- Parse a non-empty run of decimal digits. -/
def parseNat (cs : List Char) : Option (Nat × List Char) :=
  let ds := cs.takeWhile isDigitCh
  if ds = [] then none
  else some (ds.foldl (fun a c => a * 10 + digitVal c) 0, cs.dropWhile isDigitCh)

/-- Parse the remainder of a string array after its first element: either the
closing bracket, or a comma followed by a string and the rest.  The fuel
bounds the number of elements; it is in excess whenever it exceeds the
length of the input. -/
def parseArrRest : Nat → List Char → Option (List (List Char) × List Char)
  | 0, _ => none
  | f + 1, cs =>
    match skipSp cs with
    | [] => none
    | c :: rest =>
      if c = ']' then some ([], rest)
      else if c = ',' then
        match skipSp rest with
        | [] => none
        | c2 :: rest2 =>
          if c2 = '"' then
            match parseStrBody rest2 with
            | some (s, r) =>
              match parseArrRest f r with
              | some (ss, r2) => some (s :: ss, r2)
              | none => none
            | none => none
          else none
      else none

/-- Parse the inside of a string array after its opening bracket. -/
def parseArrBody (fuel : Nat) (cs : List Char) : Option (JVal × List Char) :=
  match skipSp cs with
  | [] => none
  | c :: rest =>
    if c = ']' then some (JVal.jarr [], rest)
    else if c = '"' then
      match parseStrBody rest with
      | some (s, r) =>
        match parseArrRest fuel r with
        | some (ss, r2) => some (JVal.jarr (s :: ss), r2)
        | none => none
      | none => none
    else none

/-- Parse one JSON value of the flat grammar. -/
def parseVal (fuel : Nat) (cs : List Char) : Option (JVal × List Char) :=
  match cs with
  | [] => none
  | c :: rest =>
    if c = '"' then
      match parseStrBody rest with
      | some (s, r) => some (JVal.jstr s, r)
      | none => none
    else if c = '[' then parseArrBody fuel rest
    else if c = '-' then
      match parseNat rest with
      | some (n, r) => some (JVal.jnum (-(n : Int)), r)
      | none => none
    else if isDigitCh c then
      match parseNat cs with
      | some (n, r) => some (JVal.jnum (n : Int), r)
      | none => none
    else none

/-- Parse the remainder of an object after its first pair: either the closing
brace, or a comma followed by a key, a colon, a value, and the rest. -/
def parseObjRest : Nat → List Char → Option (JObj × List Char)
  | 0, _ => none
  | f + 1, cs =>
    match skipSp cs with
    | [] => none
    | c :: rest =>
      if c = rbrace then some ([], rest)
      else if c = ',' then
        match skipSp rest with
        | [] => none
        | c2 :: rest2 =>
          if c2 = '"' then
            match parseStrBody rest2 with
            | some (k, r) =>
              match skipSp r with
              | [] => none
              | c3 :: r2 =>
                if c3 = ':' then
                  match parseVal f (skipSp r2) with
                  | some (v, r3) =>
                    match parseObjRest f r3 with
                    | some (ps, r4) => some ((k, v) :: ps, r4)
                    | none => none
                  | none => none
                else none
            | none => none
          else none
      else none

/-- Parse the inside of an object after its opening brace. -/
def parseObjBody (fuel : Nat) (cs : List Char) : Option (JObj × List Char) :=
  match skipSp cs with
  | [] => none
  | c :: rest =>
    if c = rbrace then some ([], rest)
    else if c = '"' then
      match parseStrBody rest with
      | some (k, r) =>
        match skipSp r with
        | [] => none
        | c2 :: r2 =>
          if c2 = ':' then
            match parseVal fuel (skipSp r2) with
            | some (v, r3) =>
              match parseObjRest fuel r3 with
              | some (ps, r4) => some ((k, v) :: ps, r4)
              | none => none
            | none => none
          else none
      | none => none
    else none

/-- The embedding of `json.loads` on the flat object grammar: parse one
object document and require only trailing whitespace after it. -/
def pyLoads (cs : List Char) : Option JObj :=
  match skipSp cs with
  | [] => none
  | c :: rest =>
    if c = lbrace then
      match parseObjBody (cs.length + 1) rest with
      | some (d, r) => if skipSp r = [] then some d else none
      | none => none
    else none

/-- Lookup of a key in a parsed object where later duplicates win, matching
the dictionary `json.loads` builds by sequential insertion. -/
def lookupLast (k : List Char) : JObj → Option JVal
  | [] => none
  | (k1, v) :: rest =>
    match lookupLast k rest with
    | some v1 => some v1
    | none => if k1 = k then some v else none

/-- Python `dict.get(key, default)`. -/
def pyGet (d : JObj) (k : List Char) (dflt : JVal) : JVal :=
  (lookupLast k d).getD dflt

/-! ## The display layer of `streamlit_app.py` -/

/-- The seven recipe keys used by `streamlit_app.py`. -/
def keyTitle : List Char := "title".toList

/-- Key of the description field. -/
def keyDescription : List Char := "description".toList

/-- Key of the cuisine field. -/
def keyCuisine : List Char := "cuisine".toList

/-- Key of the preparation time field. -/
def keyPrep : List Char := "prep_time_minutes".toList

/-- Key of the used-ingredient list field. -/
def keyIngredients : List Char := "ingredients_used".toList

/-- Key of the instruction list field. -/
def keyInstructions : List Char := "instructions".toList

/-- Key of the narration script field. -/
def keyNarration : List Char := "narration_script".toList

/-- Key of the in-band error objects produced by `generate_recipe`. -/
def keyError : List Char := "error".toList

/-- What the recipe display renders: one entry per `dict.get` access. -/
structure RecipeView where
  title : JVal
  prep_time_minutes : JVal
  cuisine : JVal
  description : JVal
  ingredients_used : JVal
  instructions : JVal
  narration_script : JVal
deriving DecidableEq

/-- `streamlit_app.py` lines 149 and 162 to 183: the recipe display path.
Every access is a `dict.get` with a placeholder default; the defaults are
the literals of the source (the preparation time default is the string
question mark, the cuisine default is the sidebar cuisine value, and the
narration default is applied at line 149 when the parse result is stored).
No access inspects any other key of the dictionary. -/
def displayRecipe (sidebarCuisine : List Char) (d : JObj) : RecipeView where
  title := pyGet d keyTitle (JVal.jstr "A Delightful Creation".toList)
  prep_time_minutes := pyGet d keyPrep (JVal.jstr "?".toList)
  cuisine := pyGet d keyCuisine (JVal.jstr sidebarCuisine)
  description := pyGet d keyDescription (JVal.jstr [])
  ingredients_used := pyGet d keyIngredients (JVal.jarr [])
  instructions := pyGet d keyInstructions (JVal.jarr [])
  narration_script := pyGet d keyNarration (JVal.jstr "No script generated.".toList)

/-- `streamlit_app.py` lines 146 to 155: the parse of the generator output;
a successful parse is stored in session state as `recipe_data`, a failed
parse stores `None`. -/
def appStoreRecipe (recipe_json_str : List Char) : Option JObj :=
  pyLoads recipe_json_str

/-- `streamlit_app.py` line 158: the display block runs when the stored
`recipe_data` is truthy, that is, present and a non-empty dictionary. -/
def appShowsRecipe : Option JObj → Bool
  | some d => !d.isEmpty
  | none => false

/-- A RecipeRecord as the spec data model describes it: the seven required
fields with their types. -/
structure RecipeRecord where
  title : List Char
  description : List Char
  cuisine : List Char
  prep_time_minutes : Int
  ingredients_used : List (List Char)
  instructions : List (List Char)
  narration_script : List Char

/-- The JSON object holding the seven fields of a RecipeRecord. -/
def recipeToObj (r : RecipeRecord) : JObj :=
  [ (keyTitle, JVal.jstr r.title)
  , (keyDescription, JVal.jstr r.description)
  , (keyCuisine, JVal.jstr r.cuisine)
  , (keyPrep, JVal.jnum r.prep_time_minutes)
  , (keyIngredients, JVal.jarr r.ingredients_used)
  , (keyInstructions, JVal.jarr r.instructions)
  , (keyNarration, JVal.jstr r.narration_script) ]

/-- The JSON document of a RecipeRecord. -/
def renderRecipe (r : RecipeRecord) : List Char :=
  renderObj (recipeToObj r)

/-- A string is renderable exactly when it has no raw control characters;
quote and backslash are escaped by the renderer, everything else appears
verbatim and is accepted by the strict-mode parser. -/
def cleanStr (s : List Char) : Bool := s.all (fun c => 32 ≤ c.toNat)

/-- Renderability of a flat JSON value. -/
def cleanVal : JVal → Bool
  | JVal.jstr s => cleanStr s
  | JVal.jnum _ => true
  | JVal.jarr ss => ss.all cleanStr

/-- Renderability of an object: every key and every value is renderable. -/
def cleanObj (d : JObj) : Bool :=
  d.all (fun p => cleanStr p.1 && cleanVal p.2)

/-! ## Helper lemmas on the Python string primitives -/

/-- A prefix of a list is a prefix of any extension of it. -/
theorem isPrefixOf_append_left (p l r : List Char) (h : p.isPrefixOf l = true) :
    p.isPrefixOf (l ++ r) = true := by
  have h1 : p <+: l := by simpa using h
  have h2 : p <+: l ++ r := h1.trans (List.prefix_append l r)
  simpa using h2

/-- The empty pattern occurs in every list. -/
theorem listContains_nil (l : List Char) : listContains [] l = true := by
  cases l <;> simp [listContains, List.isPrefixOf]

/-- A pattern that is a prefix occurs as a substring. -/
theorem listContains_of_isPrefixOf (p l : List Char) (h : p.isPrefixOf l = true) :
    listContains p l = true := by
  cases l with
  | nil =>
    cases p with
    | nil => simp [listContains]
    | cons a as => simp [List.isPrefixOf] at h
  | cons c cs => simp [listContains, h]

/-- Occurrence in the right part of an append is occurrence in the whole. -/
theorem listContains_append_right (p l r : List Char) (h : listContains p r = true) :
    listContains p (l ++ r) = true := by
  induction l with
  | nil => simpa using h
  | cons a l ih => simp [listContains, ih]

/-- Occurrence in the left part of an append is occurrence in the whole. -/
theorem listContains_append_left (p l r : List Char) (h : listContains p l = true) :
    listContains p (l ++ r) = true := by
  induction l with
  | nil =>
    simp [listContains, List.isEmpty_iff] at h
    subst h
    exact listContains_nil r
  | cons a l ih =>
    simp only [listContains, Bool.or_eq_true] at h
    rcases h with h | h
    · have := isPrefixOf_append_left p (a :: l) r h
      simp only [List.cons_append] at this
      simp [listContains, this]
    · simp [listContains, ih h]

/-- Occurrence in the stripped string is occurrence in the original. -/
theorem listContains_pyStrip (p s : List Char) (h : listContains p (pyStrip s) = true) :
    listContains p s = true := by
  have hu : s.takeWhile pyIsSpace ++ s.dropWhile pyIsSpace = s :=
    List.takeWhile_append_dropWhile pyIsSpace s
  set u := s.dropWhile pyIsSpace with hdef
  have h1 : u.reverse.takeWhile pyIsSpace ++ u.reverse.dropWhile pyIsSpace = u.reverse :=
    List.takeWhile_append_dropWhile pyIsSpace u.reverse
  have hw : u = dropTrailing u ++ (u.reverse.takeWhile pyIsSpace).reverse := by
    calc u = u.reverse.reverse := (List.reverse_reverse u).symm
      _ = (u.reverse.takeWhile pyIsSpace ++ u.reverse.dropWhile pyIsSpace).reverse := by
          rw [h1]
      _ = (u.reverse.dropWhile pyIsSpace).reverse ++ (u.reverse.takeWhile pyIsSpace).reverse := by
          rw [List.reverse_append]
      _ = dropTrailing u ++ (u.reverse.takeWhile pyIsSpace).reverse := rfl
  have h2 : listContains p u = true := by
    rw [hw]
    exact listContains_append_left _ _ _ h
  rw [← hu]
  exact listContains_append_right _ _ _ h2

/-- The three-backtick pattern. -/
def tick3 : List Char := [bt, bt, bt]

/-- Length of the leading backtick run. -/
def lbt : List Char → Nat
  | [] => 0
  | c :: cs => if c = bt then lbt cs + 1 else 0

/-- If the three-backtick pattern is a prefix of a cons, the head is a
backtick and the tail starts with at least two backticks. -/
theorem lbt_of_tick3_pre (c : Char) (d : List Char)
    (h : tick3.isPrefixOf (c :: d) = true) : c = bt ∧ 2 ≤ lbt d := by
  cases d with
  | nil => simp [tick3, List.isPrefixOf] at h
  | cons d1 d2 =>
    cases d2 with
    | nil => simp [tick3, List.isPrefixOf] at h
    | cons e1 e2 =>
      simp [tick3, List.isPrefixOf] at h
      obtain ⟨h1, h2, h3⟩ := h
      subst h1 h2 h3
      simp [lbt]

/-- The leading backtick run of a backtick-headed list. -/
theorem lbt_cons_bt (l : List Char) : lbt (bt :: l) = lbt l + 1 := by
  simp [lbt]

/-- The leading backtick run of a list headed by another character. -/
theorem lbt_cons_ne (c : Char) (l : List Char) (h : ¬ c = bt) : lbt (c :: l) = 0 := by
  simp [lbt, h]

/-- The three-backtick pattern is not empty. -/
theorem tick3_isEmpty : tick3.isEmpty = false := rfl

/-- The three-backtick pattern is not a prefix of a one-element list. -/
theorem tick3_not_pre_one (c : Char) : tick3.isPrefixOf [c] = false := by
  simp [tick3, List.isPrefixOf]

/-- The three-backtick pattern is not a prefix of a two-element list. -/
theorem tick3_not_pre_two (c d : Char) : tick3.isPrefixOf [c, d] = false := by
  simp [tick3, List.isPrefixOf]

/-- Core invariant of the final replace pass: its output never contains three
consecutive backticks, and its leading backtick run never grows.  Removing a
three-backtick occurrence can only merge backticks that were already part of
one contiguous run, and a run of length n shrinks to n mod 3. -/
theorem delFence3_inv (s : List Char) :
    listContains tick3 (delFence3 s) = false ∧ lbt (delFence3 s) ≤ lbt s := by
  induction s using delFence3.induct with
  | case1 c1 c2 c3 rest h ih =>
    rw [delFence3, if_pos h]
    obtain ⟨h1, h2, h3⟩ := h
    subst h1 h2 h3
    refine ⟨ih.1, ?_⟩
    have := ih.2
    rw [lbt_cons_bt, lbt_cons_bt, lbt_cons_bt]
    omega
  | case2 c1 c2 c3 rest h ih =>
    rw [delFence3, if_neg h]
    constructor
    · simp only [listContains, Bool.or_eq_false_iff]
      refine ⟨?_, ih.1⟩
      by_contra hp
      simp only [Bool.not_eq_false] at hp
      obtain ⟨hc1, hge⟩ := lbt_of_tick3_pre _ _ hp
      have hle : lbt (c2 :: c3 :: rest) ≤ 1 := by
        subst hc1
        by_cases h2 : c2 = bt
        · have h3 : ¬ c3 = bt := fun h3 => h ⟨rfl, h2, h3⟩
          subst h2
          rw [lbt_cons_bt, lbt_cons_ne _ _ h3]
        · rw [lbt_cons_ne _ _ h2]
          omega
      have := ih.2
      omega
    · by_cases h1 : c1 = bt
      · subst h1
        rw [lbt_cons_bt, lbt_cons_bt]
        have := ih.2
        omega
      · rw [lbt_cons_ne _ _ h1, lbt_cons_ne _ _ h1]
  | case3 c1 rest h ih =>
    rcases rest with _ | ⟨c2, rest2⟩
    · refine ⟨?_, le_refl _⟩
      simp [delFence3, listContains, tick3_not_pre_one, tick3_isEmpty]
    · rcases rest2 with _ | ⟨c3, rest3⟩
      · refine ⟨?_, ?_⟩
        · simp [delFence3, listContains, tick3_not_pre_one, tick3_not_pre_two, tick3_isEmpty]
        · simp [delFence3]
      · exact (h c2 c3 rest3 rfl).elim
  | case4 =>
    simp [delFence3, listContains, tick3_isEmpty]

/-- Splitting a negative containment fact at a cons cell. -/
theorem listContains_cons_false (p : List Char) (c : Char) (cs : List Char)
    (h : listContains p (c :: cs) = false) :
    p.isPrefixOf (c :: cs) = false ∧ listContains p cs = false := by
  simp only [listContains, Bool.or_eq_false_iff] at h
  exact h

/-- A string without three consecutive backticks is a fixed point of the
plain-fence replace pass. -/
theorem delFence3_id (s : List Char) (hc : listContains tick3 s = false) :
    delFence3 s = s := by
  induction s using delFence3.induct with
  | case1 c1 c2 c3 rest h ih =>
    exfalso
    obtain ⟨h1, h2, h3⟩ := h
    subst h1 h2 h3
    have hp : tick3.isPrefixOf (bt :: bt :: bt :: rest) = true := by
      simp [tick3, List.isPrefixOf]
    have ht := listContains_of_isPrefixOf _ _ hp
    rw [hc] at ht
    simp at ht
  | case2 c1 c2 c3 rest h ih =>
    obtain ⟨_, htail⟩ := listContains_cons_false _ _ _ hc
    rw [delFence3, if_neg h, ih htail]
  | case3 c1 rest h ih =>
    obtain ⟨_, htail⟩ := listContains_cons_false _ _ _ hc
    rw [delFence3.eq_2 c1 rest h, ih htail]
  | case4 => rfl

/-- A string without three consecutive backticks is a fixed point of the
json-fence replace pass. -/
theorem delFenceJson_id (s : List Char) (hc : listContains tick3 s = false) :
    delFenceJson s = s := by
  induction s using delFenceJson.induct with
  | case1 c1 c2 c3 c4 c5 c6 c7 rest h ih =>
    exfalso
    obtain ⟨h1, h2, h3, _⟩ := h
    subst h1 h2 h3
    have hp : tick3.isPrefixOf (bt :: bt :: bt :: c4 :: c5 :: c6 :: c7 :: rest) = true := by
      simp [tick3, List.isPrefixOf]
    have ht := listContains_of_isPrefixOf _ _ hp
    rw [hc] at ht
    simp at ht
  | case2 c1 c2 c3 c4 c5 c6 c7 rest h ih =>
    obtain ⟨_, htail⟩ := listContains_cons_false _ _ _ hc
    rw [delFenceJson, if_neg h, ih htail]
  | case3 c1 rest h ih =>
    obtain ⟨_, htail⟩ := listContains_cons_false _ _ _ hc
    rw [delFenceJson.eq_2 c1 rest h, ih htail]
  | case4 => rfl

/-- A string without three consecutive backticks is a fixed point of the
python-fence replace pass. -/
theorem delFencePython_id (s : List Char) (hc : listContains tick3 s = false) :
    delFencePython s = s := by
  induction s using delFencePython.induct with
  | case1 c1 c2 c3 c4 c5 c6 c7 c8 c9 rest h ih =>
    exfalso
    obtain ⟨h1, h2, h3, _⟩ := h
    subst h1 h2 h3
    have hp : tick3.isPrefixOf
        (bt :: bt :: bt :: c4 :: c5 :: c6 :: c7 :: c8 :: c9 :: rest) = true := by
      simp [tick3, List.isPrefixOf]
    have ht := listContains_of_isPrefixOf _ _ hp
    rw [hc] at ht
    simp at ht
  | case2 c1 c2 c3 c4 c5 c6 c7 c8 c9 rest h ih =>
    obtain ⟨_, htail⟩ := listContains_cons_false _ _ _ hc
    rw [delFencePython, if_neg h, ih htail]
  | case3 c1 rest h ih =>
    obtain ⟨_, htail⟩ := listContains_cons_false _ _ _ hc
    rw [delFencePython.eq_2 c1 rest h, ih htail]
  | case4 => rfl

/-- The output of the generate-side cleanup has no triple backtick. -/
theorem generateCleanup_noTriple (s : List Char) :
    listContains tick3 (generateCleanup s) = false := by
  unfold generateCleanup
  exact (delFence3_inv _).1

/-- The output of the identify-side cleanup has no triple backtick. -/
theorem identifyCleanup_noTriple (s : List Char) :
    listContains tick3 (identifyCleanup s) = false := by
  unfold identifyCleanup
  exact (delFence3_inv _).1

/-- Stripping preserves the absence of triple backticks. -/
theorem pyStrip_noTriple (u : List Char) (h : listContains tick3 u = false) :
    listContains tick3 (pyStrip u) = false := by
  by_contra hx
  simp only [Bool.not_eq_false] at hx
  have hc := listContains_pyStrip _ _ hx
  rw [h] at hc
  simp at hc

/-- A second application of the generate-side cleanup only strips whitespace. -/
theorem generateCleanup_twice (s : List Char) :
    generateCleanup (generateCleanup s) = pyStrip (generateCleanup s) := by
  have h2 : listContains tick3 (pyStrip (generateCleanup s)) = false :=
    pyStrip_noTriple _ (generateCleanup_noTriple s)
  show delFence3 (delFenceJson (pyStrip (generateCleanup s))) = pyStrip (generateCleanup s)
  rw [delFenceJson_id _ h2, delFence3_id _ h2]

/-- A second application of the identify-side cleanup only strips whitespace. -/
theorem identifyCleanup_twice (s : List Char) :
    identifyCleanup (identifyCleanup s) = pyStrip (identifyCleanup s) := by
  have h2 : listContains tick3 (pyStrip (identifyCleanup s)) = false :=
    pyStrip_noTriple _ (identifyCleanup_noTriple s)
  show delFence3 (delFencePython (pyStrip (identifyCleanup s))) = pyStrip (identifyCleanup s)
  rw [delFencePython_id _ h2, delFence3_id _ h2]

/-! ## Round trip of the JSON embedding -/

/-- Skipping whitespace before a non-space character does nothing. -/
theorem skipSp_cons (c : Char) (l : List Char) (h : jsonIsSpace c = false) :
    skipSp (c :: l) = c :: l := by
  simp [skipSp, List.dropWhile_cons, h]

/-- A digit character is not JSON whitespace and is none of the value or
structure starters the parser compares against. -/
theorem digit_not_special (c : Char) (h : isDigitCh c = true) :
    jsonIsSpace c = false ∧ ¬ c = '"' ∧ ¬ c = '[' ∧ ¬ c = '-' := by
  simp only [isDigitCh, Bool.and_eq_true, decide_eq_true_eq] at h
  refine ⟨?_, ?_, ?_, ?_⟩
  · simp only [jsonIsSpace, Bool.or_eq_false_iff, decide_eq_false_iff_not]
    refine ⟨⟨⟨?_, ?_⟩, ?_⟩, ?_⟩ <;> rintro rfl <;> revert h <;> decide
  · rintro rfl; revert h; decide
  · rintro rfl; revert h; decide
  · rintro rfl; revert h; decide

/-- Head decomposition of a clean string constraint. -/
theorem cleanStr_cons (c : Char) (s : List Char) (h : cleanStr (c :: s) = true) :
    32 ≤ c.toNat ∧ cleanStr s = true := by
  simp only [cleanStr, List.all_cons, Bool.and_eq_true, decide_eq_true_eq] at h
  exact ⟨h.1, h.2⟩

/-- Parser step: the closing quote. -/
theorem parseStrBody_quote (rest : List Char) :
    parseStrBody ('"' :: rest) = some ([], rest) := by
  rw [parseStrBody.eq_def]
  simp

/-- Parser step: an ordinary character is consumed verbatim. -/
theorem parseStrBody_plain (c : Char) (X s rest : List Char) (h1 : ¬ c = '"')
    (h2 : ¬ c = '\\') (h3 : ¬ c.toNat < 32) (ih : parseStrBody X = some (s, rest)) :
    parseStrBody (c :: X) = some (c :: s, rest) := by
  rw [parseStrBody.eq_def]
  simp [h1, h2, h3, ih]

/-- Parser step: a resolvable escape pair is decoded. -/
theorem parseStrBody_esc (e u : Char) (X s rest : List Char)
    (hu : unescapeChar e = some u) (ih : parseStrBody X = some (s, rest)) :
    parseStrBody ('\\' :: e :: X) = some (u :: s, rest) := by
  rw [parseStrBody.eq_def]
  simp [hu, ih]

/-- Round trip of a JSON string body through rendering and parsing. -/
theorem parseStrBody_render (s rest : List Char) (h : cleanStr s = true) :
    parseStrBody ((s.map escapeChar).flatten ++ ('"' :: rest)) = some (s, rest) := by
  induction s with
  | nil =>
    simp only [List.map_nil, List.flatten_nil, List.nil_append]
    exact parseStrBody_quote rest
  | cons c s ih =>
    obtain ⟨hc, hs⟩ := cleanStr_cons c s h
    have ihs := ih hs
    simp only [List.map_cons, List.flatten_cons, List.append_assoc]
    by_cases h1 : c = '"'
    · subst h1
      rw [show escapeChar '"' = ['\\', '"'] from rfl]
      exact parseStrBody_esc '"' '"' _ s rest (by rw [unescapeChar]; simp) ihs
    · by_cases h2 : c = '\\'
      · subst h2
        rw [show escapeChar '\\' = ['\\', '\\'] from rfl]
        exact parseStrBody_esc '\\' '\\' _ s rest (by rw [unescapeChar]; simp) ihs
      · have h3 : ¬ c.toNat < 32 := by omega
        rw [show escapeChar c = [c] from by simp [escapeChar, h1, h2]]
        exact parseStrBody_plain c _ s rest h1 h2 h3 ihs

/-- Taking a digit run across an append of digits. -/
theorem takeWhile_append_all (p : Char → Bool) (l r : List Char)
    (h : l.all p = true) :
    (l ++ r).takeWhile p = l ++ r.takeWhile p ∧ (l ++ r).dropWhile p = r.dropWhile p := by
  induction l with
  | nil => simp
  | cons a l ih =>
    simp only [List.all_cons, Bool.and_eq_true] at h
    have := ih h.2
    simp [List.takeWhile_cons, List.dropWhile_cons, h.1, this.1, this.2]

/-- A list whose head is not a digit has an empty digit run. -/
theorem takeWhile_headNot (r : List Char)
    (h : (match r with | [] => true | c :: _ => !isDigitCh c) = true) :
    r.takeWhile isDigitCh = [] ∧ r.dropWhile isDigitCh = r := by
  cases r with
  | nil => simp
  | cons c t =>
    simp only [Bool.not_eq_true'] at h
    simp [List.takeWhile_cons, List.dropWhile_cons, h]

/-- Digit characters of base-ten digits are digits and decode back. -/
theorem digitChar10_spec : ∀ d : Nat, d < 10 →
    isDigitCh (digitChar10 d) = true ∧ digitVal (digitChar10 d) = d := by
  decide

/-- Every character of a rendered natural number is a digit, and there is at
least one. -/
theorem renderNat_digits (n : Nat) :
    (renderNat n).all isDigitCh = true ∧ renderNat n ≠ [] := by
  by_cases h : n = 0
  · subst h
    constructor
    · decide
    · decide
  · rw [renderNat, if_neg h]
    constructor
    · rw [List.all_eq_true]
      intro c hcmem
      rw [List.mem_reverse] at hcmem
      obtain ⟨d, hd, rfl⟩ := List.mem_map.mp hcmem
      exact (digitChar10_spec d (Nat.digits_lt_base (by norm_num) hd)).1
    · simp [Nat.digits_ne_nil_iff_ne_zero, h]

/-- Folding the digit-accumulation step over a digit list recovers the
number. -/
theorem foldr_digits (l : List Nat) (hl : ∀ d ∈ l, d < 10) :
    (l.map digitChar10).foldr (fun c a => a * 10 + digitVal c) 0 = Nat.ofDigits 10 l := by
  induction l with
  | nil => simp [Nat.ofDigits_nil]
  | cons d t ih =>
    have hd : d < 10 := hl d (List.mem_cons_self d t)
    have ht : ∀ e ∈ t, e < 10 := fun e he => hl e (List.mem_cons_of_mem d he)
    have := (digitChar10_spec d hd).2
    simp only [List.map_cons, List.foldr_cons, ih ht, this, Nat.ofDigits_cons]
    have hcast : Nat.ofDigits 10 t = Nat.ofDigits 10 t := rfl
    omega

/-- The accumulator fold over a rendered natural number recovers it. -/
theorem foldl_renderNat (n : Nat) :
    (renderNat n).foldl (fun a c => a * 10 + digitVal c) 0 = n := by
  by_cases h : n = 0
  · subst h; decide
  · rw [renderNat, if_neg h, List.foldl_reverse]
    have hlt : ∀ d ∈ Nat.digits 10 n, d < 10 :=
      fun d hd => Nat.digits_lt_base (by norm_num) hd
    have := foldr_digits (Nat.digits 10 n) hlt
    calc ((Nat.digits 10 n).map digitChar10).foldr (fun x y => y * 10 + digitVal x) 0
        = Nat.ofDigits 10 (Nat.digits 10 n) := this
      _ = n := Nat.ofDigits_digits 10 n

/-- Round trip of a natural number through rendering and digit parsing. -/
theorem parseNat_render (n : Nat) (rest : List Char)
    (hr : (match rest with | [] => true | c :: _ => !isDigitCh c) = true) :
    parseNat (renderNat n ++ rest) = some (n, rest) := by
  obtain ⟨hall, hne⟩ := renderNat_digits n
  obtain ⟨htake, hdrop⟩ := takeWhile_append_all isDigitCh (renderNat n) rest hall
  obtain ⟨ht0, hd0⟩ := takeWhile_headNot rest hr
  rw [parseNat]
  simp only [htake, ht0, List.append_nil, hdrop, hd0]
  rw [if_neg hne]
  rw [foldl_renderNat]

/-- Is the head of the remaining input a non-digit (or no head at all)?
Digit parsing is greedy, so round trips need this of what follows. -/
def headNotDigit : List Char → Bool
  | [] => true
  | c :: _ => !isDigitCh c

/-- A rendered string starts with a quote; appending exposes the body. -/
theorem renderStr_shape (s X : List Char) :
    renderStr s ++ X = '"' :: ((s.map escapeChar).flatten ++ ('"' :: X)) := by
  simp [renderStr]

/-- A rendered string has at least its two quotes. -/
theorem renderStr_length (s : List Char) : 2 ≤ (renderStr s).length := by
  simp [renderStr]

/-- Value parser on a rendered string literal. -/
theorem parseVal_str (s : List Char) (fuel : Nat) (rest : List Char)
    (h : cleanStr s = true) :
    parseVal fuel (renderStr s ++ rest) = some (JVal.jstr s, rest) := by
  rw [renderStr_shape, parseVal.eq_def]
  simp [parseStrBody_render s rest h]

/-- Value parser on a rendered integer. -/
theorem parseVal_num (n : Int) (fuel : Nat) (rest : List Char)
    (hr : headNotDigit rest = true) :
    parseVal fuel (renderInt n ++ rest) = some (JVal.jnum n, rest) := by
  by_cases hn : n < 0
  · have habs : -((n.natAbs : Int)) = n := by omega
    have hstep : parseVal fuel ('-' :: (renderNat n.natAbs ++ rest))
        = some (JVal.jnum (-((n.natAbs : Int))), rest) := by
      rw [parseVal.eq_def]
      simp [parseNat_render n.natAbs rest hr]
    rw [habs] at hstep
    rw [renderInt, if_pos hn, List.cons_append]
    exact hstep
  · rw [renderInt, if_neg hn]
    obtain ⟨hall, hne⟩ := renderNat_digits n.natAbs
    obtain ⟨c, t, hct⟩ := List.exists_cons_of_ne_nil hne
    have hc : isDigitCh c = true := by
      rw [hct, List.all_cons, Bool.and_eq_true] at hall
      exact hall.1
    obtain ⟨hsp, hq, hb, hm⟩ := digit_not_special c hc
    have habs : ((n.natAbs : Int)) = n := by omega
    rw [hct, List.cons_append, parseVal.eq_def]
    have hpn := parseNat_render n.natAbs rest hr
    rw [hct] at hpn
    simp only [List.cons_append] at hpn
    simp [hq, hb, hm, hc, hpn, habs]

/-- Array-tail parser on a rendered element tail. -/
theorem parseArrRest_render (t : List (List Char)) (fuel : Nat) (rest : List Char)
    (ht : t.all cleanStr = true)
    (hb : (elemsTail t ++ (']' :: rest)).length < fuel) :
    parseArrRest fuel (elemsTail t ++ (']' :: rest)) = some (t, rest) := by
  induction t generalizing fuel with
  | nil =>
    cases fuel with
    | zero => simp at hb
    | succ f =>
      rw [show elemsTail [] = [] from rfl, List.nil_append, parseArrRest.eq_2]
      rw [skipSp_cons _ _ (by decide)]
      simp
  | cons s t ih =>
    simp only [List.all_cons, Bool.and_eq_true] at ht
    cases fuel with
    | zero => simp at hb
    | succ f =>
      have hshape : elemsTail (s :: t) ++ (']' :: rest)
          = ',' :: (renderStr s ++ (elemsTail t ++ (']' :: rest))) := by
        simp [elemsTail]
      rw [hshape, parseArrRest.eq_2]
      rw [skipSp_cons _ _ (by decide)]
      rw [renderStr_shape]
      have hsk2 := skipSp_cons '"'
        ((s.map escapeChar).flatten ++ ('"' :: (elemsTail t ++ (']' :: rest)))) (by decide)
      have hstr := parseStrBody_render s (elemsTail t ++ (']' :: rest)) ht.1
      have hbound : (elemsTail t ++ (']' :: rest)).length < f := by
        rw [hshape] at hb
        have h2 := renderStr_length s
        simp only [List.length_cons, List.length_append] at hb ⊢
        omega
      have harr := ih f ht.2 hbound
      simp [hsk2, hstr, harr]

/-- Array-body parser on a rendered array inside. -/
theorem parseArrBody_render (ss : List (List Char)) (fuel : Nat) (rest : List Char)
    (hss : ss.all cleanStr = true)
    (hb : (arrInner ss ++ rest).length < fuel) :
    parseArrBody fuel (arrInner ss ++ rest) = some (JVal.jarr ss, rest) := by
  cases ss with
  | nil =>
    rw [show arrInner [] = [']'] from rfl, List.cons_append, List.nil_append, parseArrBody]
    rw [skipSp_cons _ _ (by decide)]
    simp
  | cons s t =>
    simp only [List.all_cons, Bool.and_eq_true] at hss
    have hshape : arrInner (s :: t) ++ rest
        = renderStr s ++ (elemsTail t ++ (']' :: rest)) := by
      simp [arrInner]
    rw [hshape, parseArrBody, renderStr_shape]
    rw [skipSp_cons _ _ (by decide)]
    have hstr := parseStrBody_render s (elemsTail t ++ (']' :: rest)) hss.1
    have hbound : (elemsTail t ++ (']' :: rest)).length < fuel := by
      rw [hshape] at hb
      have h2 := renderStr_length s
      simp only [List.length_append] at hb ⊢
      omega
    have harr := parseArrRest_render t fuel rest hss.2 hbound
    simp [hstr, harr]

/-- Value parser on any rendered value of the flat grammar. -/
theorem parseVal_render (v : JVal) (fuel : Nat) (rest : List Char)
    (hv : cleanVal v = true) (hb : (renderVal v ++ rest).length < fuel)
    (hr : headNotDigit rest = true) :
    parseVal fuel (renderVal v ++ rest) = some (v, rest) := by
  cases v with
  | jstr s => exact parseVal_str s fuel rest hv
  | jnum n => exact parseVal_num n fuel rest hr
  | jarr ss =>
    rw [show renderVal (JVal.jarr ss) = '[' :: arrInner ss from rfl, List.cons_append]
    rw [parseVal.eq_def]
    have hbound : (arrInner ss ++ rest).length < fuel := by
      rw [show renderVal (JVal.jarr ss) = '[' :: arrInner ss from rfl] at hb
      simp only [List.length_cons, List.length_append] at hb ⊢
      omega
    simp [parseArrBody_render ss fuel rest hv hbound]

/-- Every rendered value starts with a non-whitespace character. -/
theorem renderVal_skipSp (v : JVal) (X : List Char) :
    skipSp (renderVal v ++ X) = renderVal v ++ X := by
  cases v with
  | jstr s =>
    rw [show renderVal (JVal.jstr s) = renderStr s from rfl, renderStr_shape]
    exact skipSp_cons _ _ (by decide)
  | jarr ss =>
    rw [show renderVal (JVal.jarr ss) = '[' :: arrInner ss from rfl, List.cons_append]
    exact skipSp_cons _ _ (by decide)
  | jnum n =>
    rw [show renderVal (JVal.jnum n) = renderInt n from rfl]
    by_cases hn : n < 0
    · rw [renderInt, if_pos hn, List.cons_append]
      exact skipSp_cons _ _ (by decide)
    · rw [renderInt, if_neg hn]
      obtain ⟨hall, hne⟩ := renderNat_digits n.natAbs
      obtain ⟨c, t, hct⟩ := List.exists_cons_of_ne_nil hne
      have hc : isDigitCh c = true := by
        rw [hct, List.all_cons, Bool.and_eq_true] at hall
        exact hall.1
      obtain ⟨hsp, _, _, _⟩ := digit_not_special c hc
      rw [hct, List.cons_append]
      exact skipSp_cons _ _ hsp

/-- Every rendered value is non-empty. -/
theorem renderVal_length_pos (v : JVal) : 1 ≤ (renderVal v).length := by
  cases v with
  | jstr s =>
    have := renderStr_length s
    rw [show renderVal (JVal.jstr s) = renderStr s from rfl]
    omega
  | jarr ss => simp [renderVal]
  | jnum n =>
    rw [show renderVal (JVal.jnum n) = renderInt n from rfl]
    by_cases hn : n < 0
    · rw [renderInt, if_pos hn]
      simp
    · rw [renderInt, if_neg hn]
      have := (renderNat_digits n.natAbs).2
      cases h : renderNat n.natAbs with
      | nil => exact absurd h this
      | cons c t => simp

/-- The tail after a rendered pair list starts with a comma or the closing
brace, never a digit. -/
theorem pairsTail_headNotDigit (ps : JObj) (rest : List Char) :
    headNotDigit (pairsTail ps ++ (rbrace :: rest)) = true := by
  cases ps with
  | nil =>
    rw [show pairsTail [] = [] from rfl, List.nil_append]
    simp [headNotDigit]
    decide
  | cons p t =>
    rw [show pairsTail (p :: t) = ',' :: (renderPair p ++ pairsTail t) from by
      simp [pairsTail], List.cons_append]
    simp [headNotDigit]
    decide

/-- Object-tail parser on a rendered pair tail. -/
theorem parseObjRest_render (t : JObj) (fuel : Nat) (rest : List Char)
    (ht : cleanObj t = true)
    (hb : (pairsTail t ++ (rbrace :: rest)).length < fuel) :
    parseObjRest fuel (pairsTail t ++ (rbrace :: rest)) = some (t, rest) := by
  induction t generalizing fuel with
  | nil =>
    cases fuel with
    | zero => simp at hb
    | succ f =>
      rw [show pairsTail [] = [] from rfl, List.nil_append, parseObjRest.eq_2]
      rw [skipSp_cons _ _ (by decide)]
      simp
  | cons p t ih =>
    obtain ⟨k, v⟩ := p
    simp only [cleanObj, List.all_cons, Bool.and_eq_true] at ht
    obtain ⟨⟨hk, hv⟩, ht2⟩ := ht
    cases fuel with
    | zero => simp at hb
    | succ f =>
      have hshape : pairsTail ((k, v) :: t) ++ (rbrace :: rest)
          = ',' :: (renderStr k ++ (':' :: (renderVal v ++ (pairsTail t ++ (rbrace :: rest))))) := by
        simp [pairsTail, renderPair]
      rw [hshape, parseObjRest.eq_2]
      rw [skipSp_cons _ _ (by decide)]
      rw [renderStr_shape]
      have hsk2 := skipSp_cons '"'
        ((k.map escapeChar).flatten
          ++ ('"' :: (':' :: (renderVal v ++ (pairsTail t ++ (rbrace :: rest)))))) (by decide)
      have hkey := parseStrBody_render k
        (':' :: (renderVal v ++ (pairsTail t ++ (rbrace :: rest)))) hk
      have hskc := skipSp_cons ':' (renderVal v ++ (pairsTail t ++ (rbrace :: rest))) (by decide)
      have hskv := renderVal_skipSp v (pairsTail t ++ (rbrace :: rest))
      have hlen2 := renderStr_length k
      have hlenv := renderVal_length_pos v
      have hbound1 : (renderVal v ++ (pairsTail t ++ (rbrace :: rest))).length < f := by
        rw [hshape] at hb
        simp only [List.length_cons, List.length_append] at hb ⊢
        omega
      have hbound2 : (pairsTail t ++ (rbrace :: rest)).length < f := by
        rw [hshape] at hb
        simp only [List.length_cons, List.length_append] at hb ⊢
        omega
      have hval := parseVal_render v f (pairsTail t ++ (rbrace :: rest)) hv hbound1
        (pairsTail_headNotDigit t rest)
      have hobj := ih f ht2 hbound2
      simp only [cleanObj] at hobj
      have hcr : ¬ ',' = rbrace := by decide
      simp [hsk2, hkey, hskc, hskv, hval, hobj, hcr]

/-- Object-body parser on a rendered object inside. -/
theorem parseObjBody_render (d : JObj) (fuel : Nat) (rest : List Char)
    (hd : cleanObj d = true)
    (hb : (objInner d ++ rest).length < fuel) :
    parseObjBody fuel (objInner d ++ rest) = some (d, rest) := by
  cases d with
  | nil =>
    rw [show objInner [] = [rbrace] from rfl, List.cons_append, List.nil_append, parseObjBody]
    rw [skipSp_cons _ _ (by decide)]
    simp
  | cons p t =>
    obtain ⟨k, v⟩ := p
    simp only [cleanObj, List.all_cons, Bool.and_eq_true] at hd
    obtain ⟨⟨hk, hv⟩, ht2⟩ := hd
    have hshape : objInner ((k, v) :: t) ++ rest
        = renderStr k ++ (':' :: (renderVal v ++ (pairsTail t ++ (rbrace :: rest)))) := by
      simp [objInner, renderPair]
    rw [hshape, parseObjBody, renderStr_shape]
    rw [skipSp_cons _ _ (by decide)]
    have hkey := parseStrBody_render k
      (':' :: (renderVal v ++ (pairsTail t ++ (rbrace :: rest)))) hk
    have hskc := skipSp_cons ':' (renderVal v ++ (pairsTail t ++ (rbrace :: rest))) (by decide)
    have hskv := renderVal_skipSp v (pairsTail t ++ (rbrace :: rest))
    have hlen2 := renderStr_length k
    have hlenv := renderVal_length_pos v
    have hbound1 : (renderVal v ++ (pairsTail t ++ (rbrace :: rest))).length < fuel := by
      rw [hshape] at hb
      simp only [List.length_cons, List.length_append] at hb ⊢
      omega
    have hbound2 : (pairsTail t ++ (rbrace :: rest)).length < fuel := by
      rw [hshape] at hb
      simp only [List.length_cons, List.length_append] at hb ⊢
      omega
    have hval := parseVal_render v fuel (pairsTail t ++ (rbrace :: rest)) hv hbound1
      (pairsTail_headNotDigit t rest)
    have hobj := parseObjRest_render t fuel rest ht2 hbound2
    have hqr : ¬ '"' = rbrace := by decide
    simp [hkey, hskc, hskv, hval, hobj, hqr]

/-- Round trip: parsing a rendered object document recovers it exactly. -/
theorem pyLoads_render (d : JObj) (h : cleanObj d = true) :
    pyLoads (renderObj d) = some d := by
  rw [pyLoads, renderObj]
  rw [skipSp_cons _ _ (by decide)]
  have hbody := parseObjBody_render d ((lbrace :: objInner d).length + 1) [] h
    (by simp only [List.append_nil, List.length_cons]; omega)
  rw [List.append_nil] at hbody
  simp only [List.length_cons] at hbody
  simp [hbody, skipSp]

/-! ## Facts about the concrete error objects and helper predicates -/

/-- A string is a JSON error object when it parses as an object whose single
key is the error key, holding a message string. -/
def isJsonErrorObj (s : List Char) : Prop :=
  ∃ m, pyLoads s = some [(keyError, JVal.jstr m)]

/-- The failure conditions an operation can meet before or at its network
call: no credential resolves, the client cannot be constructed, or the
`generate_content` call raises. -/
def opFailure (env : PyEnv) : Prop :=
  get_gemini_api_key env = none ∨ env.clientInitOk = false
    ∨ ∃ e, env.apiResponse = Except.error e

/-- The credential-missing error object parses as an error object. -/
theorem pyLoads_jsonErrNotInit :
    pyLoads jsonErrNotInit = some [(keyError, JVal.jstr "AI client not initialized.".toList)] := by
  decide

/-- The client-construction error object parses as an error object. -/
theorem pyLoads_jsonErrInitFail :
    pyLoads jsonErrInitFail
      = some [(keyError, JVal.jstr "AI client failed to initialize with key.".toList)] := by
  decide

/-- The no-food error object parses as an error object. -/
theorem pyLoads_jsonErrNoFood :
    pyLoads jsonErrNoFood
      = some [(keyError,
          JVal.jstr "Ingredient identification failed. No food was detected in the image.".toList)] := by
  decide

/-- The API-failure error object parses as an error object. -/
theorem pyLoads_jsonErrApi :
    pyLoads jsonErrApi
      = some [(keyError, JVal.jstr "Recipe generation failed due to API error.".toList)] := by
  decide

/-- The transport-failure message of `identify_ingredients` starts with the
word Error whatever the appended exception text is. -/
theorem errPre_api_call (e : List Char) :
    "Error".toList.isPrefixOf ("Error during API call: ".toList ++ e) = true :=
  isPrefixOf_append_left _ _ _ (by decide)

/-- The all-placeholder view: what the display path renders for a dictionary
holding none of the seven recipe keys. -/
def placeholderView (sidebarCuisine : List Char) : RecipeView where
  title := JVal.jstr "A Delightful Creation".toList
  prep_time_minutes := JVal.jstr "?".toList
  cuisine := JVal.jstr sidebarCuisine
  description := JVal.jstr []
  ingredients_used := JVal.jarr []
  instructions := JVal.jarr []
  narration_script := JVal.jstr "No script generated.".toList

/-! ## The claims -/

/-- C1 (amended): for every ingredient string containing the sentinel phrase
and any cuisine, max time, and dietary filters, `generate_recipe` attempts no
network call; and whenever a credential resolves and the client constructs,
it returns exactly the no-food JSON error object.  (As stated the claim also
fixed the output in credential-missing states, where the code returns a
different error object; see the counterexample.) -/
theorem c1_sentinel_fail_fast (env : PyEnv) (s cuisine : List Char) (max_time : Nat)
    (dietary_filters : List (List Char)) (h : listContains sentinel s = true) :
    (generate_recipe env s cuisine max_time dietary_filters).apiCalls = 0
    ∧ ((get_gemini_api_key env).isSome = true → env.clientInitOk = true →
        (generate_recipe env s cuisine max_time dietary_filters).output = jsonErrNoFood) := by
  rcases hk : get_gemini_api_key env with _ | k
  · simp [generate_recipe, hk]
  · rcases hc : env.clientInitOk
    · simp [generate_recipe, hk, hc, h]
    · simp [generate_recipe, hk, hc, h]

/-- C1 witness: a concrete state with a resolving credential where the
sentinel input produces the no-food error object and no network call. -/
theorem c1_witness :
    listContains sentinel sentinel = true
    ∧ ((generate_recipe ⟨some "k".toList, none, true, Except.ok []⟩ sentinel
          "Any".toList 30 []).apiCalls = 0
      ∧ ((get_gemini_api_key ⟨some "k".toList, none, true, Except.ok []⟩).isSome = true →
          (⟨some "k".toList, none, true, Except.ok []⟩ : PyEnv).clientInitOk = true →
          (generate_recipe ⟨some "k".toList, none, true, Except.ok []⟩ sentinel
            "Any".toList 30 []).output = jsonErrNoFood)) :=
  ⟨by decide,
   c1_sentinel_fail_fast ⟨some "k".toList, none, true, Except.ok []⟩ sentinel
     "Any".toList 30 [] (by decide)⟩

/-- C1 counterexample: with no credential in either source, the sentinel
input yields the not-initialized error object, not the no-food object the
claim fixes, though still with no network call. -/
theorem c1_counterexample :
    listContains sentinel sentinel = true
    ∧ (generate_recipe ⟨none, none, true, Except.ok []⟩ sentinel "Any".toList 30 []).output
        ≠ jsonErrNoFood
    ∧ (generate_recipe ⟨none, none, true, Except.ok []⟩ sentinel "Any".toList 30 []).output
        = jsonErrNotInit := by
  refine ⟨by decide, by decide, rfl⟩

/-- C2 (amended): the code-fence stripping operation is not idempotent in
general; a second application equals a plain whitespace strip of the first
result, so it is idempotent exactly on inputs whose once-stripped result
carries no further leading or trailing whitespace. -/
theorem c2_fence_strip_second_pass (s : List Char) :
    generateCleanup (generateCleanup s) = pyStrip (generateCleanup s)
    ∧ identifyCleanup (identifyCleanup s) = pyStrip (identifyCleanup s) :=
  ⟨generateCleanup_twice s, identifyCleanup_twice s⟩

/-- C2 counterexample: an input whose fences guard outer spaces; one
application leaves the spaces, a second application removes them, so
applying twice differs from applying once, for both cleanup variants. -/
theorem c2_counterexample :
    generateCleanup (generateCleanup "``` a ```".toList)
        ≠ generateCleanup "``` a ```".toList
    ∧ identifyCleanup (identifyCleanup "``` a ```".toList)
        ≠ identifyCleanup "``` a ```".toList :=
  ⟨by decide, by decide⟩

/-- C3: in every state where the credential resolver yields no key, the
identify operation returns the fixed missing-key message, which contains the
substring Error, the generate operation returns the not-initialized JSON
error object, and neither operation attempts a network call.  The embedded
operations are total functions, mirroring that the Python code returns
normally on this path instead of raising. -/
theorem c3_missing_key_in_band (env : PyEnv) (s cuisine : List Char) (max_time : Nat)
    (dietary_filters : List (List Char)) (h : get_gemini_api_key env = none) :
    (identify_ingredients env).output
        = "Error: Gemini API key is missing from Streamlit secrets.".toList
    ∧ listContains "Error".toList (identify_ingredients env).output = true
    ∧ (identify_ingredients env).apiCalls = 0
    ∧ (generate_recipe env s cuisine max_time dietary_filters).output = jsonErrNotInit
    ∧ isJsonErrorObj (generate_recipe env s cuisine max_time dietary_filters).output
    ∧ (generate_recipe env s cuisine max_time dietary_filters).apiCalls = 0 := by
  have hi : identify_ingredients env
      = ⟨"Error: Gemini API key is missing from Streamlit secrets.".toList, 0⟩ := by
    rw [identify_ingredients, h]
  have hg : generate_recipe env s cuisine max_time dietary_filters
      = ⟨jsonErrNotInit, 0, false⟩ := by
    rw [generate_recipe, h]
  rw [hi, hg]
  exact ⟨rfl, by decide, rfl, rfl,
    ⟨"AI client not initialized.".toList, pyLoads_jsonErrNotInit⟩, rfl⟩

/-- C3 witness: the concrete state with neither credential source set. -/
theorem c3_witness :
    get_gemini_api_key ⟨none, none, true, Except.ok []⟩ = none
    ∧ ((identify_ingredients ⟨none, none, true, Except.ok []⟩).output
          = "Error: Gemini API key is missing from Streamlit secrets.".toList
      ∧ listContains "Error".toList
          (identify_ingredients ⟨none, none, true, Except.ok []⟩).output = true
      ∧ (identify_ingredients ⟨none, none, true, Except.ok []⟩).apiCalls = 0
      ∧ (generate_recipe ⟨none, none, true, Except.ok []⟩ "eggs".toList
          "Any".toList 30 []).output = jsonErrNotInit
      ∧ isJsonErrorObj (generate_recipe ⟨none, none, true, Except.ok []⟩ "eggs".toList
          "Any".toList 30 []).output
      ∧ (generate_recipe ⟨none, none, true, Except.ok []⟩ "eggs".toList
          "Any".toList 30 []).apiCalls = 0) :=
  ⟨rfl, c3_missing_key_in_band ⟨none, none, true, Except.ok []⟩ "eggs".toList
    "Any".toList 30 [] rfl⟩

/-- C4: under every failure condition (missing credential, failed client
construction, or a raising network call) the identify operation returns a
string beginning with Error and the generate operation returns a JSON error
object string; the embedded operations are total, mirroring that the Python
functions catch these failures and return instead of raising. -/
theorem c4_failures_in_band (env : PyEnv) (s cuisine : List Char) (max_time : Nat)
    (dietary_filters : List (List Char)) (h : opFailure env) :
    "Error".toList.isPrefixOf (identify_ingredients env).output = true
    ∧ isJsonErrorObj (generate_recipe env s cuisine max_time dietary_filters).output := by
  constructor
  · rcases hk : get_gemini_api_key env with _ | k
    · simp [identify_ingredients, hk]
    · rcases hc : env.clientInitOk
      · simp [identify_ingredients, hk, hc]
      · rcases ha : env.apiResponse with e | t
        · simp only [identify_ingredients, hk, hc, ha]
          exact errPre_api_call e
        · exfalso
          rcases h with h | h | ⟨e, h⟩
          · rw [hk] at h; exact Option.noConfusion h
          · rw [hc] at h; exact Bool.noConfusion h
          · rw [ha] at h; exact Except.noConfusion h
  · rcases hk : get_gemini_api_key env with _ | k
    · simp [generate_recipe, hk]
      exact ⟨"AI client not initialized.".toList, pyLoads_jsonErrNotInit⟩
    · rcases hc : env.clientInitOk
      · simp [generate_recipe, hk, hc]
        exact ⟨"AI client failed to initialize with key.".toList, pyLoads_jsonErrInitFail⟩
      · rcases hsent : listContains sentinel s
        · rcases ha : env.apiResponse with e | t
          · simp [generate_recipe, hk, hc, hsent, ha]
            exact ⟨"Recipe generation failed due to API error.".toList, pyLoads_jsonErrApi⟩
          · exfalso
            rcases h with h | h | ⟨e, h⟩
            · rw [hk] at h; exact Option.noConfusion h
            · rw [hc] at h; exact Bool.noConfusion h
            · rw [ha] at h; exact Except.noConfusion h
        · simp [generate_recipe, hk, hc, hsent]
          exact ⟨"Ingredient identification failed. No food was detected in the image.".toList,
            pyLoads_jsonErrNoFood⟩

/-- C4 witness: a concrete state whose network call raises. -/
theorem c4_witness :
    opFailure ⟨some "k".toList, none, true, Except.error "boom".toList⟩
    ∧ ("Error".toList.isPrefixOf
        (identify_ingredients ⟨some "k".toList, none, true, Except.error "boom".toList⟩).output
          = true
      ∧ isJsonErrorObj (generate_recipe
          ⟨some "k".toList, none, true, Except.error "boom".toList⟩ "eggs".toList
          "Any".toList 30 []).output) :=
  ⟨Or.inr (Or.inr ⟨"boom".toList, rfl⟩),
   c4_failures_in_band ⟨some "k".toList, none, true, Except.error "boom".toList⟩
     "eggs".toList "Any".toList 30 [] (Or.inr (Or.inr ⟨"boom".toList, rfl⟩))⟩

/-- C5 (amended): `get_gemini_api_key` returns the secret-store value
whenever the store access succeeds with a non-empty value; when the store
access raises, it falls back to the environment variable and returns its
value when non-empty; but when the store access succeeds with an empty
value, the environment fallback is skipped and no key is returned even if
the environment variable holds a non-empty key. -/
theorem c5_credential_fallback :
    (∀ env : PyEnv, ∀ k, env.secretsEntry = some k → k ≠ [] →
        get_gemini_api_key env = some k)
    ∧ (∀ env : PyEnv, ∀ k, env.secretsEntry = none → env.envVar = some k → k ≠ [] →
        get_gemini_api_key env = some k)
    ∧ (∀ env : PyEnv, env.secretsEntry = some [] → get_gemini_api_key env = none) := by
  refine ⟨?_, ?_, ?_⟩
  · intro env k h1 h2
    simp [get_gemini_api_key, h1, h2]
  · intro env k h1 h2 h3
    simp [get_gemini_api_key, h1, h2, h3]
  · intro env h1
    simp [get_gemini_api_key, h1]

/-- C5 witness: the three behaviors at concrete states. -/
theorem c5_witness :
    ((⟨some "ks".toList, none, true, Except.ok []⟩ : PyEnv).secretsEntry = some "ks".toList
      ∧ "ks".toList ≠ []
      ∧ get_gemini_api_key ⟨some "ks".toList, none, true, Except.ok []⟩ = some "ks".toList)
    ∧ ((⟨none, some "ke".toList, true, Except.ok []⟩ : PyEnv).secretsEntry = none
      ∧ (⟨none, some "ke".toList, true, Except.ok []⟩ : PyEnv).envVar = some "ke".toList
      ∧ get_gemini_api_key ⟨none, some "ke".toList, true, Except.ok []⟩ = some "ke".toList)
    ∧ ((⟨some [], some "ke".toList, true, Except.ok []⟩ : PyEnv).secretsEntry = some []
      ∧ get_gemini_api_key ⟨some [], some "ke".toList, true, Except.ok []⟩ = none) :=
  ⟨⟨rfl, by decide, c5_credential_fallback.1 ⟨some "ks".toList, none, true, Except.ok []⟩
      "ks".toList rfl (by decide)⟩,
   ⟨rfl, rfl, c5_credential_fallback.2.1 ⟨none, some "ke".toList, true, Except.ok []⟩
      "ke".toList rfl rfl (by decide)⟩,
   ⟨rfl, c5_credential_fallback.2.2 ⟨some [], some "ke".toList, true, Except.ok []⟩ rfl⟩⟩

/-- C5 counterexample: the secret store holds an empty value and the
environment variable holds a non-empty key, yet no key is returned — the
claim as stated promises a non-null key whenever either source is
non-empty. -/
theorem c5_counterexample :
    "KEY".toList ≠ []
    ∧ (⟨some [], some "KEY".toList, true, Except.ok []⟩ : PyEnv).envVar = some "KEY".toList
    ∧ get_gemini_api_key ⟨some [], some "KEY".toList, true, Except.ok []⟩ = none :=
  ⟨by decide, rfl, rfl⟩

/-- C8: the video stub returns the same constant URL for every title and
narration script; the result is independent of both arguments. -/
theorem c8_video_stub_constant (recipe_title narration_script : List Char) :
    generate_recipe_video recipe_title narration_script
      = "https://www.youtube.com/watch?v=kY3NfQGz29Q".toList := rfl

/-- C10 (amended): the sentinel check is substring containment, not
equality: every ingredient string containing the sentinel anywhere, even
embedded in a well-formed list, keeps execution from reaching the
prompt-building and API-call code; whenever a credential resolves and the
client constructs, the short-circuit branch returns the no-food error
object.  (As stated the claim promised the short-circuit branch in every
state; with no credential an earlier branch answers instead.) -/
theorem c10_sentinel_containment (env : PyEnv) (s cuisine : List Char) (max_time : Nat)
    (dietary_filters : List (List Char)) (h : listContains sentinel s = true) :
    (generate_recipe env s cuisine max_time dietary_filters).builtPrompt = false
    ∧ (generate_recipe env s cuisine max_time dietary_filters).apiCalls = 0
    ∧ ((get_gemini_api_key env).isSome = true → env.clientInitOk = true →
        (generate_recipe env s cuisine max_time dietary_filters).output = jsonErrNoFood) := by
  rcases hk : get_gemini_api_key env with _ | k
  · simp [generate_recipe, hk]
  · rcases hc : env.clientInitOk
    · simp [generate_recipe, hk, hc, h]
    · simp [generate_recipe, hk, hc, h]

/-- C10 witness: an embedded occurrence of the sentinel, different from the
exact sentinel string, still short-circuits in a state with a credential. -/
theorem c10_witness :
    listContains sentinel "2 eggs, 1 cup flour FAILURE: NO FOOD DETECTED end".toList = true
    ∧ ((generate_recipe ⟨some "k".toList, none, true, Except.ok []⟩
          "2 eggs, 1 cup flour FAILURE: NO FOOD DETECTED end".toList
          "Any".toList 30 []).builtPrompt = false
      ∧ (generate_recipe ⟨some "k".toList, none, true, Except.ok []⟩
          "2 eggs, 1 cup flour FAILURE: NO FOOD DETECTED end".toList
          "Any".toList 30 []).apiCalls = 0
      ∧ ((get_gemini_api_key ⟨some "k".toList, none, true, Except.ok []⟩).isSome = true →
          (⟨some "k".toList, none, true, Except.ok []⟩ : PyEnv).clientInitOk = true →
          (generate_recipe ⟨some "k".toList, none, true, Except.ok []⟩
            "2 eggs, 1 cup flour FAILURE: NO FOOD DETECTED end".toList
            "Any".toList 30 []).output = jsonErrNoFood)) :=
  ⟨by decide,
   c10_sentinel_containment ⟨some "k".toList, none, true, Except.ok []⟩
     "2 eggs, 1 cup flour FAILURE: NO FOOD DETECTED end".toList
     "Any".toList 30 [] (by decide)⟩

/-- C10 counterexample: with no credential, an ingredient string with an
embedded sentinel does not take the short-circuit branch: the returned
object is the not-initialized error, not the no-food error. -/
theorem c10_counterexample :
    listContains sentinel "2 eggs FAILURE: NO FOOD DETECTED tail".toList = true
    ∧ "2 eggs FAILURE: NO FOOD DETECTED tail".toList ≠ sentinel
    ∧ (generate_recipe ⟨none, none, true, Except.ok []⟩
        "2 eggs FAILURE: NO FOOD DETECTED tail".toList "Any".toList 30 []).output
        ≠ jsonErrNoFood :=
  ⟨by decide, by decide, by decide⟩

/-- C6: for every RecipeRecord whose strings are free of raw control
characters (exactly the strings its JSON document can carry verbatim),
parsing the rendered document with the JSON parser succeeds, and accessing
each of the seven required keys on the parse result reproduces the original
field value, whatever default the access supplies. -/
theorem c6_recipe_json_roundtrip (r : RecipeRecord)
    (h : cleanObj (recipeToObj r) = true) :
    pyLoads (renderRecipe r) = some (recipeToObj r)
    ∧ (∀ dflt, pyGet (recipeToObj r) keyTitle dflt = JVal.jstr r.title)
    ∧ (∀ dflt, pyGet (recipeToObj r) keyDescription dflt = JVal.jstr r.description)
    ∧ (∀ dflt, pyGet (recipeToObj r) keyCuisine dflt = JVal.jstr r.cuisine)
    ∧ (∀ dflt, pyGet (recipeToObj r) keyPrep dflt = JVal.jnum r.prep_time_minutes)
    ∧ (∀ dflt, pyGet (recipeToObj r) keyIngredients dflt = JVal.jarr r.ingredients_used)
    ∧ (∀ dflt, pyGet (recipeToObj r) keyInstructions dflt = JVal.jarr r.instructions)
    ∧ (∀ dflt, pyGet (recipeToObj r) keyNarration dflt = JVal.jstr r.narration_script) :=
  ⟨pyLoads_render (recipeToObj r) h,
   fun _ => rfl, fun _ => rfl, fun _ => rfl, fun _ => rfl,
   fun _ => rfl, fun _ => rfl, fun _ => rfl⟩

/-- C6 witness: a concrete record round trips and every field reads back. -/
theorem c6_witness :
    cleanObj (recipeToObj ⟨"Tomato Pasta".toList, "A quick dish.".toList, "Italian".toList,
        25, ["2 eggs".toList, "1 cup flour".toList], ["Mix.".toList, "Cook.".toList],
        "Narration here.".toList⟩) = true
    ∧ pyLoads (renderRecipe ⟨"Tomato Pasta".toList, "A quick dish.".toList, "Italian".toList,
        25, ["2 eggs".toList, "1 cup flour".toList], ["Mix.".toList, "Cook.".toList],
        "Narration here.".toList⟩)
      = some (recipeToObj ⟨"Tomato Pasta".toList, "A quick dish.".toList, "Italian".toList,
        25, ["2 eggs".toList, "1 cup flour".toList], ["Mix.".toList, "Cook.".toList],
        "Narration here.".toList⟩)
    ∧ pyGet (recipeToObj ⟨"Tomato Pasta".toList, "A quick dish.".toList, "Italian".toList,
        25, ["2 eggs".toList, "1 cup flour".toList], ["Mix.".toList, "Cook.".toList],
        "Narration here.".toList⟩) keyTitle (JVal.jstr [])
      = JVal.jstr "Tomato Pasta".toList :=
  ⟨by decide,
   (c6_recipe_json_roundtrip ⟨"Tomato Pasta".toList, "A quick dish.".toList, "Italian".toList,
      25, ["2 eggs".toList, "1 cup flour".toList], ["Mix.".toList, "Cook.".toList],
      "Narration here.".toList⟩ (by decide)).1,
   (c6_recipe_json_roundtrip ⟨"Tomato Pasta".toList, "A quick dish.".toList, "Italian".toList,
      25, ["2 eggs".toList, "1 cup flour".toList], ["Mix.".toList, "Cook.".toList],
      "Narration here.".toList⟩ (by decide)).2.1 (JVal.jstr [])⟩

/-- C7: a JSON object document needs none of the seven recipe keys to
parse (the renderable objects all round trip, whatever keys they hold), and
at display time each absent key is replaced by its placeholder default: the
title placeholder, the question-mark time, the sidebar cuisine, the empty
description, empty ingredient and instruction lists, and the no-script
narration placeholder. -/
theorem c7_missing_keys_defaults (d : JObj) (sc : List Char)
    (hclean : cleanObj d = true) :
    pyLoads (renderObj d) = some d
    ∧ (lookupLast keyTitle d = none →
        (displayRecipe sc d).title = JVal.jstr "A Delightful Creation".toList)
    ∧ (lookupLast keyPrep d = none →
        (displayRecipe sc d).prep_time_minutes = JVal.jstr "?".toList)
    ∧ (lookupLast keyCuisine d = none →
        (displayRecipe sc d).cuisine = JVal.jstr sc)
    ∧ (lookupLast keyDescription d = none →
        (displayRecipe sc d).description = JVal.jstr [])
    ∧ (lookupLast keyIngredients d = none →
        (displayRecipe sc d).ingredients_used = JVal.jarr [])
    ∧ (lookupLast keyInstructions d = none →
        (displayRecipe sc d).instructions = JVal.jarr [])
    ∧ (lookupLast keyNarration d = none →
        (displayRecipe sc d).narration_script = JVal.jstr "No script generated.".toList) := by
  refine ⟨pyLoads_render d hclean, ?_, ?_, ?_, ?_, ?_, ?_, ?_⟩ <;>
    intro h <;> simp [displayRecipe, pyGet, h]

/-- C7 witness: a one-key object parses and the six other accesses fall
back to their placeholders; shown here for the title. -/
theorem c7_witness :
    cleanObj [(keyDescription, JVal.jstr "x".toList)] = true
    ∧ lookupLast keyTitle [(keyDescription, JVal.jstr "x".toList)] = none
    ∧ pyLoads (renderObj [(keyDescription, JVal.jstr "x".toList)])
        = some [(keyDescription, JVal.jstr "x".toList)]
    ∧ (displayRecipe "Any".toList [(keyDescription, JVal.jstr "x".toList)]).title
        = JVal.jstr "A Delightful Creation".toList :=
  ⟨by decide, rfl,
   (c7_missing_keys_defaults [(keyDescription, JVal.jstr "x".toList)] "Any".toList
      (by decide)).1,
   (c7_missing_keys_defaults [(keyDescription, JVal.jstr "x".toList)] "Any".toList
      (by decide)).2.1 rfl⟩

/-- C9: each JSON error object string `generate_recipe` can return parses
successfully, the parsed one-key dictionary is truthy so it is stored and
rendered through the normal recipe display path, and the rendered view is
exactly the all-placeholder view, for any sidebar cuisine: the display
layer reads none of the error content and presents the error object as a
recipe. -/
theorem c9_error_object_displayed_as_recipe (sc : List Char) :
    (appStoreRecipe jsonErrNotInit
        = some [(keyError, JVal.jstr "AI client not initialized.".toList)]
      ∧ appShowsRecipe (appStoreRecipe jsonErrNotInit) = true
      ∧ displayRecipe sc [(keyError, JVal.jstr "AI client not initialized.".toList)]
          = placeholderView sc)
    ∧ (appStoreRecipe jsonErrInitFail
        = some [(keyError, JVal.jstr "AI client failed to initialize with key.".toList)]
      ∧ appShowsRecipe (appStoreRecipe jsonErrInitFail) = true
      ∧ displayRecipe sc
          [(keyError, JVal.jstr "AI client failed to initialize with key.".toList)]
          = placeholderView sc)
    ∧ (appStoreRecipe jsonErrNoFood
        = some [(keyError,
            JVal.jstr "Ingredient identification failed. No food was detected in the image.".toList)]
      ∧ appShowsRecipe (appStoreRecipe jsonErrNoFood) = true
      ∧ displayRecipe sc
          [(keyError,
            JVal.jstr "Ingredient identification failed. No food was detected in the image.".toList)]
          = placeholderView sc)
    ∧ (appStoreRecipe jsonErrApi
        = some [(keyError, JVal.jstr "Recipe generation failed due to API error.".toList)]
      ∧ appShowsRecipe (appStoreRecipe jsonErrApi) = true
      ∧ displayRecipe sc [(keyError, JVal.jstr "Recipe generation failed due to API error.".toList)]
          = placeholderView sc) := by
  refine ⟨⟨pyLoads_jsonErrNotInit, ?_, rfl⟩, ⟨pyLoads_jsonErrInitFail, ?_, rfl⟩,
    ⟨pyLoads_jsonErrNoFood, ?_, rfl⟩, ⟨pyLoads_jsonErrApi, ?_, rfl⟩⟩ <;> decide
